import Mathlib

/-!
Shallow embedding of the reservation core of `src/app.py` (Bobby's Table,
a restaurant reservation system).

Python dictionaries (`AVAILABILITY`, `RESERVATIONS`, the per-date slot
tables) are modelled as association lists over `String` keys that preserve
insertion order, exactly like CPython dicts: looking up a key finds its
first (and, in reachable states, only) binding, and writing to an existing
key updates the binding in place while writing a fresh key appends it.

The global mutable state of the Python module is threaded explicitly:
every operation takes the state and returns the updated state together
with its result.
-/

namespace BobbysTable

/-- An insertion-ordered string-keyed dictionary, as in CPython. -/
abbrev SDict (β : Type) : Type := List (String × β)

/-- `d[k]` / `d.get(k)`: the value bound to the first occurrence of `k`. -/
def dget {β : Type} : SDict β → String → Option β
  | [], _ => none
  | (k', v') :: rest, k => if k' = k then some v' else dget rest k

/-- `d[k] = v`: update the first binding of `k` in place, else append. -/
def dset {β : Type} : SDict β → String → β → SDict β
  | [], k, v => [(k, v)]
  | (k', v') :: rest, k, v =>
    if k' = k then (k, v) :: rest else (k', v') :: dset rest k v

/-- The key sequence of a dictionary (`list(d.keys())`). -/
def dkeys {β : Type} (d : SDict β) : List String := d.map Prod.fst

-- ───────────────────────────────────────────────────────────────────────
-- Configuration (src/app.py lines 73-75)
-- ───────────────────────────────────────────────────────────────────────

def TIME_SLOTS : List String := ["17:00", "18:00", "19:00", "20:00", "21:00"]

def MAX_PER_SLOT : Nat := 5

def MAX_PARTY_SIZE : Int := 20

-- ───────────────────────────────────────────────────────────────────────
-- Slot ledger (src/app.py lines 95-132)
-- ───────────────────────────────────────────────────────────────────────

/-- One entry of `AVAILABILITY[date]`: the per-slot record
`{"max": ..., "booked": ..., "reservation_ids": [...]}`. -/
structure SlotRec where
  max : Nat
  booked : Nat
  reservation_ids : List String
deriving DecidableEq, Repr

/-- The availability table: `AVAILABILITY : date -> time_slot -> SlotRec`. -/
abbrev Avail : Type := SDict (SDict SlotRec)

/-- The initial record for a freshly materialized slot (app.py line 99). -/
def initRec : SlotRec := { max := MAX_PER_SLOT, booked := 0, reservation_ids := [] }

/-- `{slot: {"max": MAX_PER_SLOT, "booked": 0, "reservation_ids": []} for slot in TIME_SLOTS}`
(app.py lines 98-101). -/
def initSlots : SDict SlotRec := TIME_SLOTS.map (fun s => (s, initRec))

/-- `if date not in AVAILABILITY: AVAILABILITY[date] = {...}` (app.py lines 97-101). -/
def ensureDate (av : Avail) (date : String) : Avail :=
  if (dget av date).isSome then av else dset av date initSlots

/-- The record stored for `(date, time_slot)`, if any. -/
def recAt (av : Avail) (date time_slot : String) : Option SlotRec :=
  match dget av date with
  | none => none
  | some slots => dget slots time_slot

/-- Result dictionary of `get_slot_availability` (app.py lines 105-112). -/
structure AvailResult where
  available : Bool
  remaining : Int
  reason : Option String
deriving DecidableEq, Repr

/-- The read-only part of `get_slot_availability` (app.py lines 103-112):
`slot = AVAILABILITY[date].get(time_slot)`, then compute
`remaining = slot["max"] - slot["booked"]`. -/
def slotStatus (av : Avail) (date time_slot : String) : AvailResult :=
  match recAt av date time_slot with
  | none => { available := false, remaining := 0, reason := some "Invalid time slot" }
  | some slot =>
    let remaining : Int := (slot.max : Int) - (slot.booked : Int)
    { available := decide (remaining > 0),
      remaining := remaining,
      reason := if remaining > 0 then none else some "Time slot is fully booked" }

/-- `get_slot_availability(date, time_slot)` (app.py lines 95-112): lazily
materializes the date's slot table, then reports availability.  Returns the
updated `AVAILABILITY` together with the result dict. -/
def get_slot_availability (av : Avail) (date time_slot : String) : Avail × AvailResult :=
  let av1 := ensureDate av date
  (av1, slotStatus av1 date time_slot)

/-- In-place update of `AVAILABILITY[date][time_slot]`.  The Python source
indexes directly (`AVAILABILITY[date][time_slot]["booked"] += 1`); it only
does so after a guard that guarantees both keys are present, so the `none`
branches below are unreachable in every use. -/
def modifySlot (av : Avail) (date time_slot : String) (f : SlotRec → SlotRec) : Avail :=
  match dget av date with
  | none => av
  | some slots =>
    match dget slots time_slot with
    | none => av
    | some rec => dset av date (dset slots time_slot (f rec))

/-- The record update performed by `book_slot` (app.py lines 121-122):
`["booked"] += 1` and `["reservation_ids"].append(reservation_id)`. -/
def bookUpd (reservation_id : String) (rec : SlotRec) : SlotRec :=
  { rec with booked := rec.booked + 1,
             reservation_ids := rec.reservation_ids ++ [reservation_id] }

/-- `book_slot(date, time_slot, reservation_id)` (app.py lines 115-123). -/
def book_slot (av : Avail) (date time_slot reservation_id : String) : Avail × Bool :=
  let p := get_slot_availability av date time_slot
  if p.2.available then
    (modifySlot p.1 date time_slot (bookUpd reservation_id), true)
  else
    (p.1, false)

/-- The record update performed by `release_slot` (app.py lines 131-132):
`["reservation_ids"].remove(reservation_id)` — Python's `list.remove`
drops the first occurrence, which is `List.erase` — then
`["booked"] = max(0, booked - 1)`. -/
def relUpd (reservation_id : String) (rec : SlotRec) : SlotRec :=
  { rec with reservation_ids := rec.reservation_ids.erase reservation_id,
             booked := max 0 (rec.booked - 1) }

/-- `release_slot(date, time_slot, reservation_id)` (app.py lines 126-132):
a no-op unless the date and slot exist and the id occupies the slot. -/
def release_slot (av : Avail) (date time_slot reservation_id : String) : Avail :=
  match recAt av date time_slot with
  | none => av
  | some rec =>
    if reservation_id ∈ rec.reservation_ids then
      modifySlot av date time_slot (relUpd reservation_id)
    else av

-- ───────────────────────────────────────────────────────────────────────
-- Observations on the ledger
-- ───────────────────────────────────────────────────────────────────────

/-- The booked count a reader would see for `(date, time_slot)`
(a never-materialized slot counts as 0 booked). -/
def bookedAt (av : Avail) (date time_slot : String) : Nat :=
  ((recAt av date time_slot).map SlotRec.booked).getD 0

/-- The occupancy list a reader would see for `(date, time_slot)`. -/
def idsAt (av : Avail) (date time_slot : String) : List String :=
  ((recAt av date time_slot).map SlotRec.reservation_ids).getD []

/-- The capacity a reader would see for `(date, time_slot)`
(a never-materialized slot has capacity `MAX_PER_SLOT`). -/
def capAt (av : Avail) (date time_slot : String) : Nat :=
  ((recAt av date time_slot).map SlotRec.max).getD MAX_PER_SLOT

/-- Key shape of every reachable availability table: each materialized
date's inner table has exactly the configured `TIME_SLOTS` as keys, in
order (the comprehension on app.py lines 98-101 creates them all at once
and no operation ever adds or removes an inner key). -/
def WFKeys (av : Avail) : Prop :=
  ∀ p ∈ av, dkeys p.2 = TIME_SLOTS

-- ───────────────────────────────────────────────────────────────────────
-- Reservation store and the SWAIG tool handlers (src/app.py lines 67, 814-1047)
-- ───────────────────────────────────────────────────────────────────────

/-- A record of `RESERVATIONS` (app.py lines 836-846).  The wall-clock
`created_at` timestamp is omitted: it is an opaque environment input that
no claim mentions. -/
structure Reservation where
  id : String
  name : String
  party_size : Int
  date : String
  time : String
  phone : String
  special_requests : String
  status : String
deriving DecidableEq, Repr

/-- The shared mutable module state: `RESERVATIONS` and `AVAILABILITY`. -/
structure SysState where
  reservations : SDict Reservation
  availability : Avail
deriving DecidableEq, Repr

/-- The state at process start: both dictionaries empty (app.py lines 67, 70). -/
def initState : SysState := { reservations := [], availability := [] }

/-- The session's `pending_reservation` draft dictionary.  A field that
was never set is `none`; Python's truthiness test `not pending.get(f)`
also treats `""` (strings) and `0` (party size) as missing. -/
structure Pending where
  name : Option String
  party_size : Option Int
  date : Option String
  time : Option String
  phone : Option String
  special_requests : Option String
deriving DecidableEq, Repr

/-- Python truthiness of an optional string: `not pending.get(f)`. -/
def truthyS : Option String → Bool
  | none => false
  | some s => s ≠ ""

/-- Python truthiness of an optional integer. -/
def truthyI : Option Int → Bool
  | none => false
  | some n => n ≠ 0

/-- `missing = [f for f in required if not pending.get(f)]` with
`required = ["name", "party_size", "date", "time", "phone"]`
(app.py lines 820-821). -/
def missingFields (pending : Pending) : List String :=
  (if truthyS pending.name then [] else ["name"]) ++
  (if truthyI pending.party_size then [] else ["party_size"]) ++
  (if truthyS pending.date then [] else ["date"]) ++
  (if truthyS pending.time then [] else ["time"]) ++
  (if truthyS pending.phone then [] else ["phone"])

/-- Outcome of `confirm_reservation`. -/
inductive ConfirmOutcome where
  | validationError (missing : List String)
  | slotUnavailable
  | confirmed (res : Reservation)
deriving DecidableEq, Repr

/-- `confirm_reservation` (app.py lines 814-872).  The random draw of
`generate_confirmation_number()` (app.py lines 78-80) is an environment
input, passed in as `confirmation_number`; the source generates it once
and never re-checks it against existing reservations. -/
def confirm_reservation (st : SysState) (pending : Pending)
    (confirmation_number : String) : SysState × ConfirmOutcome :=
  let missing := missingFields pending
  if missing ≠ [] then
    (st, .validationError missing)
  else
    let date := pending.date.getD ""
    let time := pending.time.getD ""
    let p := get_slot_availability st.availability date time
    if p.2.available = false then
      ({ st with availability := p.1 }, .slotUnavailable)
    else
      let reservation : Reservation :=
        { id := confirmation_number,
          name := pending.name.getD "",
          party_size := pending.party_size.getD 0,
          date := date,
          time := time,
          phone := pending.phone.getD "",
          special_requests := pending.special_requests.getD "",
          status := "confirmed" }
      let q := book_slot p.1 date time confirmation_number
      ({ reservations := dset st.reservations confirmation_number reservation,
         availability := q.1 }, .confirmed reservation)

/-- Outcome of `lookup_reservation`. -/
inductive LookupOutcome where
  | prompt
  | results (found : List Reservation)
deriving DecidableEq, Repr

/-- Python's substring test `a in b`. -/
def isSubstr (a b : String) : Bool := decide (a.toList <:+: b.toList)

/-- The match test of the lookup loop (app.py lines 911-917): confirmed
reservations only; `if phone and phone in res["phone"]` then
`elif name and name.lower() in res["name"].lower()`. -/
def lookupMatch (phone name : String) (r : Reservation) : Bool :=
  if r.status ≠ "confirmed" then false
  else if phone ≠ "" ∧ isSubstr phone r.phone then true
  else if name ≠ "" ∧ isSubstr name.toLower r.name.toLower then true
  else false

/-- The collection loop of `lookup_reservation` (app.py lines 910-917):
`for res_id, res in RESERVATIONS.items():` with `continue` on
non-confirmed records, then `if`/`elif` on the phone and name tests,
appending matches in iteration order. -/
def lookupScan (phone name : String) : List (String × Reservation) → List Reservation
  | [] => []
  | (_, res) :: rest =>
    if res.status ≠ "confirmed" then lookupScan phone name rest
    else if phone ≠ "" ∧ isSubstr phone res.phone then
      res :: lookupScan phone name rest
    else if name ≠ "" ∧ isSubstr name.toLower res.name.toLower then
      res :: lookupScan phone name rest
    else lookupScan phone name rest

/-- `lookup_reservation(phone, name)` (app.py lines 895-946), reduced to
what it reads: with neither argument it returns a prompt asking which to
provide; otherwise it scans `RESERVATIONS` in insertion order collecting
matches.  (The source then branches on 0/1/many matches to phrase the
response; the collected list is the same.) -/
def lookup_reservation (rs : SDict Reservation) (phone name : String) : LookupOutcome :=
  if phone = "" ∧ name = "" then .prompt
  else .results (lookupScan phone name rs)

/-- Outcome of `modify_reservation` / `cancel_existing_reservation`.  The
`notFound` constructor is the "I need to look up your reservation first"
response (app.py lines 970-974, 1025-1029). -/
inductive ManageOutcome where
  | notFound
  | slotUnavailable (date time : String)
  | ok (res : Reservation)
deriving DecidableEq, Repr

/-- `if "party_size" in args: res["party_size"] = args["party_size"]`
(app.py lines 998-999). -/
def applyPartySize (ps : Option Int) (r : Reservation) : Reservation :=
  match ps with
  | some v => { r with party_size := v }
  | none => r

/-- `if "special_requests" in args: res["special_requests"] = ...`
(app.py lines 1000-1001). -/
def applySpecialRequests (sr : Option String) (r : Reservation) : Reservation :=
  match sr with
  | some v => { r with special_requests := v }
  | none => r

/-- `modify_reservation` (app.py lines 965-1011).  `res_id` is
`global_data.get("found_reservation_id")` (absent or `None` modelled as
`none`; `not res_id` also rejects `""`).  The `args` dictionary is given
by its four optional entries. -/
def modify_reservation (st : SysState) (res_id : Option String)
    (args_date args_time : Option String) (args_party_size : Option Int)
    (args_special_requests : Option String) : SysState × ManageOutcome :=
  match res_id with
  | none => (st, .notFound)
  | some rid =>
    if rid = "" then (st, .notFound)
    else
      match dget st.reservations rid with
      | none => (st, .notFound)
      | some res =>
        let old_date := res.date
        let old_time := res.time
        let new_date := args_date.getD old_date
        let new_time := args_time.getD old_time
        if new_date ≠ old_date ∨ new_time ≠ old_time then
          let p := get_slot_availability st.availability new_date new_time
          if p.2.available = false then
            ({ st with availability := p.1 }, .slotUnavailable new_date new_time)
          else
            let av2 := release_slot p.1 old_date old_time rid
            let q := book_slot av2 new_date new_time rid
            let res1 := { res with date := new_date, time := new_time }
            let res3 := applySpecialRequests args_special_requests
              (applyPartySize args_party_size res1)
            ({ reservations := dset st.reservations rid res3, availability := q.1 },
             .ok res3)
        else
          let res3 := applySpecialRequests args_special_requests
            (applyPartySize args_party_size res)
          ({ st with reservations := dset st.reservations rid res3 }, .ok res3)

/-- `cancel_existing_reservation` (app.py lines 1020-1047): flips the
record's status to `"cancelled"` and releases its slot. -/
def cancel_existing_reservation (st : SysState) (res_id : Option String) :
    SysState × ManageOutcome :=
  match res_id with
  | none => (st, .notFound)
  | some rid =>
    if rid = "" then (st, .notFound)
    else
      match dget st.reservations rid with
      | none => (st, .notFound)
      | some res =>
        let res1 := { res with status := "cancelled" }
        let av1 := release_slot st.availability res1.date res1.time rid
        ({ reservations := dset st.reservations rid res1, availability := av1 },
         .ok res1)

-- ───────────────────────────────────────────────────────────────────────
-- Reachable states
-- ───────────────────────────────────────────────────────────────────────

/-- One invocation of an operation that can touch the shared state. -/
inductive Op where
  | check (date time : String)
  | book (date time rid : String)
  | release (date time rid : String)
  | confirm (pending : Pending) (confirmation_number : String)
  | modify (res_id : Option String) (args_date args_time : Option String)
      (args_party_size : Option Int) (args_special_requests : Option String)
  | cancel (res_id : Option String)

/-- The state after running one operation (results discarded). -/
def applyOp (st : SysState) : Op → SysState
  | .check d t => { st with availability := (get_slot_availability st.availability d t).1 }
  | .book d t r => { st with availability := (book_slot st.availability d t r).1 }
  | .release d t r => { st with availability := release_slot st.availability d t r }
  | .confirm p cn => (confirm_reservation st p cn).1
  | .modify rid d t ps sr => (modify_reservation st rid d t ps sr).1
  | .cancel rid => (cancel_existing_reservation st rid).1

/-- States reachable from process start by any sequence of operations. -/
inductive Reachable : SysState → Prop where
  | init : Reachable initState
  | step (st : SysState) (op : Op) : Reachable st → Reachable (applyOp st op)

-- ───────────────────────────────────────────────────────────────────────
-- Dictionary lemmas
-- ───────────────────────────────────────────────────────────────────────

theorem dget_dset_self {β : Type} (l : SDict β) (k : String) (v : β) :
    dget (dset l k v) k = some v := by
  induction l with
  | nil => simp [dget, dset]
  | cons p rest ih =>
    obtain ⟨a, b⟩ := p
    by_cases ha : a = k
    · subst ha; simp [dset, dget]
    · simp [dset, dget, ha, ih]

theorem dget_dset_ne {β : Type} (l : SDict β) {k k' : String} (v : β) (h : k' ≠ k) :
    dget (dset l k v) k' = dget l k' := by
  induction l with
  | nil => simp [dget, dset, Ne.symm h]
  | cons p rest ih =>
    obtain ⟨a, b⟩ := p
    by_cases ha : a = k
    · subst ha
      simp [dset, dget, Ne.symm h]
    · by_cases hak : a = k'
      · subst hak
        simp [dset, dget, ha, h]
      · simp [dset, dget, ha, hak, ih]

theorem mem_dset {β : Type} {l : SDict β} {k : String} {v : β} {p : String × β}
    (h : p ∈ dset l k v) : p = (k, v) ∨ p ∈ l := by
  induction l with
  | nil => simpa [dset] using h
  | cons q rest ih =>
    obtain ⟨a, b⟩ := q
    by_cases ha : a = k
    · subst ha
      simp [dset, List.mem_cons] at h
      rcases h with h | h
      · exact Or.inl h
      · exact Or.inr (List.mem_cons_of_mem _ h)
    · simp only [dset, if_neg ha, List.mem_cons] at h
      rcases h with h | h
      · exact Or.inr (by simp [h])
      · rcases ih h with h | h
        · exact Or.inl h
        · exact Or.inr (List.mem_cons_of_mem _ h)

theorem dget_mem {β : Type} {l : SDict β} {k : String} {v : β}
    (h : dget l k = some v) : (k, v) ∈ l := by
  induction l with
  | nil => simp [dget] at h
  | cons q rest ih =>
    obtain ⟨a, b⟩ := q
    by_cases ha : a = k
    · subst ha
      simp [dget] at h
      subst h
      exact List.mem_cons_self _ _
    · simp only [dget, if_neg ha] at h
      exact List.mem_cons_of_mem _ (ih h)

theorem dkeys_dset_of_mem {β : Type} {l : SDict β} {k : String} {w : β}
    (h : dget l k = some w) (v : β) : dkeys (dset l k v) = dkeys l := by
  induction l with
  | nil => simp [dget] at h
  | cons q rest ih =>
    obtain ⟨a, b⟩ := q
    by_cases ha : a = k
    · subst ha; simp [dset, dkeys]
    · simp only [dget, if_neg ha] at h
      simp only [dset, if_neg ha, dkeys, List.map_cons, List.cons.injEq]
      exact ⟨trivial, ih h⟩

theorem dset_eq_of_dget {β : Type} {l : SDict β} {k : String} {v : β}
    (h : dget l k = some v) : dset l k v = l := by
  induction l with
  | nil => simp [dget] at h
  | cons q rest ih =>
    obtain ⟨a, b⟩ := q
    by_cases ha : a = k
    · subst ha
      simp [dget] at h
      subst h
      simp [dset]
    · simp only [dget, if_neg ha] at h
      simp [dset, ha, ih h]

theorem dget_isSome_iff {β : Type} {l : SDict β} {k : String} :
    (dget l k).isSome = true ↔ k ∈ dkeys l := by
  induction l with
  | nil => simp [dget, dkeys]
  | cons q rest ih =>
    obtain ⟨a, b⟩ := q
    by_cases ha : a = k
    · subst ha; simp [dget, dkeys]
    · simp [dget, dkeys, ha, ih, Ne.symm ha]

theorem dget_map_const {β : Type} (l : List String) (c : β) (k : String) :
    dget (l.map fun s => (s, c)) k = if k ∈ l then some c else none := by
  induction l with
  | nil => simp [dget]
  | cons a rest ih =>
    by_cases ha : a = k
    · subst ha; simp [dget]
    · simp [dget, ha, ih, Ne.symm ha]

/-- `initSlots` binds exactly the configured slots, all to `initRec`. -/
theorem dget_initSlots (t : String) :
    dget initSlots t = if t ∈ TIME_SLOTS then some initRec else none :=
  dget_map_const TIME_SLOTS initRec t

theorem dkeys_initSlots : dkeys initSlots = TIME_SLOTS := rfl

-- ───────────────────────────────────────────────────────────────────────
-- Ledger lemmas
-- ───────────────────────────────────────────────────────────────────────

theorem ensureDate_of_isSome (av : Avail) (d : String) (h : (dget av d).isSome = true) :
    ensureDate av d = av := by
  simp [ensureDate, h]

theorem recAt_ensureDate_ne (av : Avail) (d : String) {d' : String} (t : String)
    (h : d' ≠ d) : recAt (ensureDate av d) d' t = recAt av d' t := by
  unfold ensureDate
  split
  · rfl
  · simp [recAt, dget_dset_ne _ _ h]

theorem recAt_ensureDate_self (av : Avail) (d t : String) :
    recAt (ensureDate av d) d t =
      if (dget av d).isSome then recAt av d t
      else if t ∈ TIME_SLOTS then some initRec else none := by
  unfold ensureDate
  split
  · simp_all
  · simp_all [recAt, dget_dset_self, dget_initSlots]

theorem bookedAt_ensureDate (av : Avail) (d d' t' : String) :
    bookedAt (ensureDate av d) d' t' = bookedAt av d' t' := by
  by_cases hd : d' = d
  · subst hd
    unfold bookedAt
    rw [recAt_ensureDate_self]
    split
    · rfl
    · have hav : dget av d' = none := by
        cases h : dget av d' <;> simp_all
      rw [show recAt av d' t' = none from by simp [recAt, hav]]
      split <;> simp [initRec]
  · unfold bookedAt
    rw [recAt_ensureDate_ne av d t' hd]

theorem idsAt_ensureDate (av : Avail) (d d' t' : String) :
    idsAt (ensureDate av d) d' t' = idsAt av d' t' := by
  by_cases hd : d' = d
  · subst hd
    unfold idsAt
    rw [recAt_ensureDate_self]
    split
    · rfl
    · have hav : dget av d' = none := by
        cases h : dget av d' <;> simp_all
      rw [show recAt av d' t' = none from by simp [recAt, hav]]
      split <;> simp [initRec]
  · unfold idsAt
    rw [recAt_ensureDate_ne av d t' hd]

theorem capAt_ensureDate (av : Avail) (d d' t' : String) :
    capAt (ensureDate av d) d' t' = capAt av d' t' := by
  by_cases hd : d' = d
  · subst hd
    unfold capAt
    rw [recAt_ensureDate_self]
    split
    · rfl
    · have hav : dget av d' = none := by
        cases h : dget av d' <;> simp_all
      rw [show recAt av d' t' = none from by simp [recAt, hav]]
      split <;> simp [initRec]
  · unfold capAt
    rw [recAt_ensureDate_ne av d t' hd]

theorem recAt_modifySlot_self {av : Avail} {d t : String} {rec : SlotRec}
    (h : recAt av d t = some rec) (f : SlotRec → SlotRec) :
    recAt (modifySlot av d t f) d t = some (f rec) := by
  unfold modifySlot
  split
  next hd => simp [recAt, hd] at h
  next slots hd =>
    have h2 : dget slots t = some rec := by simpa [recAt, hd] using h
    split
    next ht => rw [ht] at h2; exact absurd h2 (by simp)
    next rec2 ht =>
      rw [ht] at h2
      obtain rfl : rec2 = rec := by injection h2
      simp [recAt, dget_dset_self]

theorem recAt_modifySlot_ne (av : Avail) (d t : String) (f : SlotRec → SlotRec)
    {d' t' : String} (h : ¬(d' = d ∧ t' = t)) :
    recAt (modifySlot av d t f) d' t' = recAt av d' t' := by
  unfold modifySlot
  split
  next => rfl
  next slots hd =>
    split
    next => rfl
    next rec ht =>
      by_cases hdd : d' = d
      · subst hdd
        have ht' : t' ≠ t := fun hh => h ⟨rfl, hh⟩
        simp [recAt, dget_dset_self, dget_dset_ne _ _ ht', hd]
      · simp [recAt, dget_dset_ne _ _ hdd]

/-- `book_slot` in terms of the ensured table and the found record. -/
theorem book_slot_spec (av : Avail) (d t rid : String) :
    book_slot av d t rid =
      match recAt (ensureDate av d) d t with
      | none => (ensureDate av d, false)
      | some rec =>
        if (rec.max : Int) - (rec.booked : Int) > 0 then
          (modifySlot (ensureDate av d) d t (bookUpd rid), true)
        else (ensureDate av d, false) := by
  unfold book_slot get_slot_availability slotStatus
  cases h : recAt (ensureDate av d) d t with
  | none => simp [h]
  | some rec =>
    simp only [h]
    by_cases hr : (rec.max : Int) - (rec.booked : Int) > 0 <;> simp [hr]

-- ───────────────────────────────────────────────────────────────────────
-- The ledger invariant and its preservation
-- ───────────────────────────────────────────────────────────────────────

/-- Per-record invariant: the fixed capacity, the capacity bound, and
agreement between the counter and the occupancy list. -/
def SlotInv (r : SlotRec) : Prop :=
  r.max = MAX_PER_SLOT ∧ r.booked ≤ r.max ∧ r.booked = r.reservation_ids.length

/-- Whole-table invariant: every materialized date has exactly the
configured slot keys, and every record satisfies `SlotInv`. -/
def AvailInv (av : Avail) : Prop :=
  ∀ p ∈ av, dkeys p.2 = TIME_SLOTS ∧ ∀ q ∈ p.2, SlotInv q.2

theorem slotInv_initRec : SlotInv initRec := by
  refine ⟨rfl, ?_, rfl⟩
  simp [initRec]

theorem availInv_nil : AvailInv [] := by
  intro p hp
  simp at hp

theorem availInv_recAt {av : Avail} (h : AvailInv av) {d t : String} {rec : SlotRec}
    (hr : recAt av d t = some rec) : SlotInv rec := by
  unfold recAt at hr
  cases hd : dget av d with
  | none => rw [hd] at hr; exact absurd hr (by simp)
  | some slots =>
    rw [hd] at hr
    exact ((h _ (dget_mem hd)).2 _ (dget_mem hr))

theorem availInv_ensureDate {av : Avail} (h : AvailInv av) (d : String) :
    AvailInv (ensureDate av d) := by
  unfold ensureDate
  split
  · exact h
  · intro p hp
    rcases mem_dset hp with hp | hp
    · subst hp
      refine ⟨dkeys_initSlots, ?_⟩
      intro q hq
      have : q.2 = initRec := by
        simp only [initSlots, List.mem_map] at hq
        obtain ⟨s, _, hs⟩ := hq
        rw [← hs]
      rw [this]
      exact slotInv_initRec
    · exact h _ hp

theorem availInv_modifySlot {av : Avail} (h : AvailInv av) (d t : String)
    {f : SlotRec → SlotRec}
    (hf : ∀ rec, recAt av d t = some rec → SlotInv rec → SlotInv (f rec)) :
    AvailInv (modifySlot av d t f) := by
  unfold modifySlot
  split
  next => exact h
  next slots hd =>
    split
    next => exact h
    next rec ht =>
      have hmem : (d, slots) ∈ av := dget_mem hd
      have hrec : recAt av d t = some rec := by simp [recAt, hd, ht]
      have hSlot : SlotInv rec := (h _ hmem).2 _ (dget_mem ht)
      intro p hp
      rcases mem_dset hp with hp | hp
      · subst hp
        constructor
        · rw [dkeys_dset_of_mem ht]
          exact (h _ hmem).1
        · intro q hq
          rcases mem_dset hq with hq | hq
          · subst hq
            exact hf rec hrec hSlot
          · exact (h _ hmem).2 _ hq
      · exact h _ hp

theorem availInv_book {av : Avail} (h : AvailInv av) (d t rid : String) :
    AvailInv (book_slot av d t rid).1 := by
  rw [book_slot_spec]
  have h1 : AvailInv (ensureDate av d) := availInv_ensureDate h d
  split
  next => exact h1
  next rec hrec =>
    split
    next hpos =>
      refine availInv_modifySlot h1 d t ?_
      intro rec2 hrec2 hinv2
      rw [hrec] at hrec2
      obtain rfl : rec = rec2 := by injection hrec2
      obtain ⟨hmax, hle, hlen⟩ := hinv2
      have hlt : rec.booked < rec.max := by omega
      refine ⟨hmax, ?_, ?_⟩
      · simp only [bookUpd]
        omega
      · simp [bookUpd, hlen]
    next => exact h1

theorem availInv_release {av : Avail} (h : AvailInv av) (d t rid : String) :
    AvailInv (release_slot av d t rid) := by
  unfold release_slot
  split
  next => exact h
  next rec hrec =>
    split
    next hin =>
      refine availInv_modifySlot h d t ?_
      intro rec2 hrec2 hinv2
      rw [hrec] at hrec2
      obtain rfl : rec = rec2 := by injection hrec2
      obtain ⟨hmax, hle, hlen⟩ := hinv2
      have hpos : 1 ≤ rec.reservation_ids.length := List.length_pos.mpr (by
        intro hnil
        rw [hnil] at hin
        simp at hin)
      refine ⟨hmax, ?_, ?_⟩
      · simp [relUpd]
        omega
      · simp [relUpd, List.length_erase_of_mem hin]
        omega
    next => exact h

theorem availInv_applyOp {st : SysState} (h : AvailInv st.availability) (op : Op) :
    AvailInv (applyOp st op).availability := by
  cases op with
  | check d t => exact availInv_ensureDate h d
  | book d t r => exact availInv_book h d t r
  | release d t r => exact availInv_release h d t r
  | confirm p cn =>
    show AvailInv (confirm_reservation st p cn).1.availability
    simp only [confirm_reservation]
    split
    · exact h
    · split
      · exact availInv_ensureDate h _
      · exact availInv_book (availInv_ensureDate h _) _ _ _
  | modify rid ad at2 ps sr =>
    show AvailInv (modify_reservation st rid ad at2 ps sr).1.availability
    simp only [modify_reservation]
    split
    · exact h
    next rid2 =>
      split
      · exact h
      · split
        next => exact h
        next res hres =>
          split
          next hmove =>
            split
            next => exact availInv_ensureDate h _
            next =>
              exact availInv_book
                (availInv_release (availInv_ensureDate h _) _ _ _) _ _ _
          next => exact h
  | cancel rid =>
    show AvailInv (cancel_existing_reservation st rid).1.availability
    simp only [cancel_existing_reservation]
    split
    · exact h
    next rid2 =>
      split
      · exact h
      · split
        next => exact h
        next res hres => exact availInv_release h _ _ _

theorem reachable_availInv {st : SysState} (h : Reachable st) :
    AvailInv st.availability := by
  induction h with
  | init => exact availInv_nil
  | step st op _ ih => exact availInv_applyOp ih op

theorem bookedAt_congr {av av2 : Avail} {d t : String}
    (h : recAt av2 d t = recAt av d t) : bookedAt av2 d t = bookedAt av d t := by
  unfold bookedAt
  rw [h]

theorem idsAt_congr {av av2 : Avail} {d t : String}
    (h : recAt av2 d t = recAt av d t) : idsAt av2 d t = idsAt av d t := by
  unfold idsAt
  rw [h]

/-- On a well-formed table, a configured slot always resolves to a record
after the lazy materialization, and that record carries exactly the
observable booked count, occupancy and capacity of the pre-state. -/
theorem recAt_ensure_of_wf {av : Avail} (hwf : WFKeys av) (date : String)
    {time_slot : String} (hts : time_slot ∈ TIME_SLOTS) :
    ∃ rec : SlotRec, recAt (ensureDate av date) date time_slot = some rec ∧
      rec.booked = bookedAt av date time_slot ∧
      rec.reservation_ids = idsAt av date time_slot ∧
      rec.max = capAt av date time_slot := by
  rw [recAt_ensureDate_self]
  cases hd : dget av date with
  | none =>
    refine ⟨initRec, by simp [hd, hts], ?_, ?_, ?_⟩ <;>
      simp [initRec, bookedAt, idsAt, capAt, recAt, hd]
  | some slots =>
    have hkeys : dkeys slots = TIME_SLOTS := hwf _ (dget_mem hd)
    have hsome : (dget slots time_slot).isSome = true :=
      dget_isSome_iff.mpr (hkeys ▸ hts)
    obtain ⟨rec, hrec⟩ := Option.isSome_iff_exists.mp hsome
    refine ⟨rec, ?_, ?_, ?_, ?_⟩ <;>
      simp [hd, recAt, hrec, bookedAt, idsAt, capAt]

/-- The whole-table invariant implies the key shape. -/
theorem availInv_wfKeys {av : Avail} (h : AvailInv av) : WFKeys av :=
  fun p hp => (h p hp).1

-- ───────────────────────────────────────────────────────────────────────
-- Release lemmas
-- ───────────────────────────────────────────────────────────────────────

theorem idsAt_of_recAt {av : Avail} {d t : String} {rec : SlotRec}
    (h : recAt av d t = some rec) : idsAt av d t = rec.reservation_ids := by
  unfold idsAt
  rw [h]
  rfl

theorem bookedAt_of_recAt {av : Avail} {d t : String} {rec : SlotRec}
    (h : recAt av d t = some rec) : bookedAt av d t = rec.booked := by
  unfold bookedAt
  rw [h]
  rfl

/-- Releasing an id that does not occupy the slot is literally a no-op. -/
theorem release_slot_not_mem {av : Avail} {d t rid : String}
    (h : rid ∉ idsAt av d t) : release_slot av d t rid = av := by
  unfold release_slot
  cases hr : recAt av d t with
  | none => simp
  | some rec =>
    rw [idsAt_of_recAt hr] at h
    simp [h]

theorem recAt_release_self {av : Avail} {d t rid : String} {rec : SlotRec}
    (hrec : recAt av d t = some rec) (hin : rid ∈ rec.reservation_ids) :
    recAt (release_slot av d t rid) d t = some (relUpd rid rec) := by
  unfold release_slot
  rw [hrec]
  simp only [hin, if_pos]
  exact recAt_modifySlot_self hrec (relUpd rid)

theorem recAt_release_ne (av : Avail) (d t rid : String) {d2 t2 : String}
    (h : ¬(d2 = d ∧ t2 = t)) :
    recAt (release_slot av d t rid) d2 t2 = recAt av d2 t2 := by
  unfold release_slot
  cases hr : recAt av d t with
  | none => simp
  | some rec =>
    simp only
    split
    · exact recAt_modifySlot_ne av d t (relUpd rid) h
    · rfl

-- ───────────────────────────────────────────────────────────────────────
-- Claims
-- ───────────────────────────────────────────────────────────────────────

/-- C1: at every state reachable by any sequence of check availability,
book slot, release slot, confirm, modify and cancel, every slot's booked
count is at most the capacity `MAX_PER_SLOT` and equals the number of
reservation identifiers in the slot's occupancy list. -/
theorem C1_capacity_invariant (st : SysState) (h : Reachable st)
    (date time_slot : String) :
    bookedAt st.availability date time_slot ≤ MAX_PER_SLOT ∧
    bookedAt st.availability date time_slot =
      (idsAt st.availability date time_slot).length := by
  have hinv := reachable_availInv h
  unfold bookedAt idsAt
  cases hr : recAt st.availability date time_slot with
  | none => simp
  | some rec =>
    obtain ⟨hmax, hle, hlen⟩ := availInv_recAt hinv hr
    constructor
    · simpa using hmax ▸ hle
    · simpa using hlen

theorem C1_capacity_invariant_witness :
    bookedAt (applyOp (applyOp initState
        (Op.book "2025-03-01" "19:00" "111111")) (Op.cancel none)).availability
      "2025-03-01" "19:00" ≤ MAX_PER_SLOT ∧
    bookedAt (applyOp (applyOp initState
        (Op.book "2025-03-01" "19:00" "111111")) (Op.cancel none)).availability
      "2025-03-01" "19:00" =
      (idsAt (applyOp (applyOp initState
        (Op.book "2025-03-01" "19:00" "111111")) (Op.cancel none)).availability
      "2025-03-01" "19:00").length :=
  C1_capacity_invariant _
    (Reachable.step _ _ (Reachable.step _ _ Reachable.init)) "2025-03-01" "19:00"

/-- C2: for every date, configured time slot and reservation identifier,
`book` returns true, increments the slot's booked count by one and appends
the id to its occupancy list iff capacity minus booked was strictly
positive at call time; otherwise it returns false and leaves every slot's
booked count and occupancy list unchanged.  (`WFKeys` states the key shape
every program state has: materialized dates carry exactly the configured
slot keys.) -/
theorem C2_book_contract (av : Avail) (date time_slot rid : String)
    (hwf : WFKeys av) (hts : time_slot ∈ TIME_SLOTS) :
    ((book_slot av date time_slot rid).2 = true ↔
      (capAt av date time_slot : Int) - (bookedAt av date time_slot : Int) > 0) ∧
    ((book_slot av date time_slot rid).2 = true →
      bookedAt (book_slot av date time_slot rid).1 date time_slot =
        bookedAt av date time_slot + 1 ∧
      idsAt (book_slot av date time_slot rid).1 date time_slot =
        idsAt av date time_slot ++ [rid] ∧
      ∀ d2 t2, ¬(d2 = date ∧ t2 = time_slot) →
        bookedAt (book_slot av date time_slot rid).1 d2 t2 = bookedAt av d2 t2 ∧
        idsAt (book_slot av date time_slot rid).1 d2 t2 = idsAt av d2 t2) ∧
    ((book_slot av date time_slot rid).2 = false →
      ∀ d2 t2, bookedAt (book_slot av date time_slot rid).1 d2 t2 = bookedAt av d2 t2 ∧
        idsAt (book_slot av date time_slot rid).1 d2 t2 = idsAt av d2 t2) := by
  obtain ⟨rec, hrec, hb, hi, hm⟩ := recAt_ensure_of_wf hwf date hts
  simp only [book_slot_spec, hrec]
  by_cases hpos : (rec.max : Int) - (rec.booked : Int) > 0
  · rw [if_pos hpos]
    refine ⟨by simpa [hb, hm] using hpos, ?_, by simp⟩
    intro _
    refine ⟨?_, ?_, ?_⟩
    · have h1 : bookedAt (modifySlot (ensureDate av date) date time_slot (bookUpd rid))
          date time_slot = rec.booked + 1 := by
        unfold bookedAt
        rw [recAt_modifySlot_self hrec]
        simp [bookUpd]
      rw [h1, hb]
    · have h1 : idsAt (modifySlot (ensureDate av date) date time_slot (bookUpd rid))
          date time_slot = rec.reservation_ids ++ [rid] := by
        unfold idsAt
        rw [recAt_modifySlot_self hrec]
        simp [bookUpd]
      rw [h1, hi]
    · intro d2 t2 hne
      have hmod := recAt_modifySlot_ne (ensureDate av date) date time_slot
        (bookUpd rid) hne
      constructor
      · rw [bookedAt_congr hmod]
        exact bookedAt_ensureDate av date d2 t2
      · rw [idsAt_congr hmod]
        exact idsAt_ensureDate av date d2 t2
  · rw [if_neg hpos]
    refine ⟨by simpa [hb, hm] using hpos, by simp, ?_⟩
    intro _ d2 t2
    exact ⟨bookedAt_ensureDate av date d2 t2, idsAt_ensureDate av date d2 t2⟩

theorem C2_book_contract_witness :
    (((book_slot [] "2025-03-01" "19:00" "111111").2 = true ↔
      (capAt [] "2025-03-01" "19:00" : Int) - (bookedAt [] "2025-03-01" "19:00" : Int) > 0) ∧
    ((book_slot [] "2025-03-01" "19:00" "111111").2 = true →
      bookedAt (book_slot [] "2025-03-01" "19:00" "111111").1 "2025-03-01" "19:00" =
        bookedAt [] "2025-03-01" "19:00" + 1 ∧
      idsAt (book_slot [] "2025-03-01" "19:00" "111111").1 "2025-03-01" "19:00" =
        idsAt [] "2025-03-01" "19:00" ++ ["111111"] ∧
      ∀ d2 t2, ¬(d2 = "2025-03-01" ∧ t2 = "19:00") →
        bookedAt (book_slot [] "2025-03-01" "19:00" "111111").1 d2 t2 = bookedAt [] d2 t2 ∧
        idsAt (book_slot [] "2025-03-01" "19:00" "111111").1 d2 t2 = idsAt [] d2 t2) ∧
    ((book_slot [] "2025-03-01" "19:00" "111111").2 = false →
      ∀ d2 t2, bookedAt (book_slot [] "2025-03-01" "19:00" "111111").1 d2 t2 = bookedAt [] d2 t2 ∧
        idsAt (book_slot [] "2025-03-01" "19:00" "111111").1 d2 t2 = idsAt [] d2 t2)) :=
  C2_book_contract [] "2025-03-01" "19:00" "111111"
    (fun p hp => absurd hp (List.not_mem_nil p)) (by decide)

/-- On a well-formed table, a non-configured slot label never resolves. -/
theorem recAt_not_slot {av : Avail} (hwf : WFKeys av) (d : String) {t : String}
    (ht : t ∉ TIME_SLOTS) : recAt av d t = none := by
  unfold recAt
  cases hd : dget av d with
  | none => rfl
  | some slots =>
    have hkeys : dkeys slots = TIME_SLOTS := hwf _ (dget_mem hd)
    cases hg : dget slots t with
    | none => simp [hg]
    | some r =>
      exact absurd (hkeys ▸ dget_isSome_iff.mp (by simp [hg])) ht

/-- Lazy materialization cannot make a non-configured slot resolve. -/
theorem recAt_ensure_not_slot {av : Avail} (hwf : WFKeys av) (d : String)
    {t : String} (ht : t ∉ TIME_SLOTS) : recAt (ensureDate av d) d t = none := by
  rw [recAt_ensureDate_self]
  split
  next hs =>
    cases hd : dget av d with
    | none => simp [hd] at hs
    | some slots =>
      have h2 : recAt av d t = none := recAt_not_slot hwf d ht
      exact h2
  next => simp [ht]

/-- C10: for a slot label outside the configured `TIME_SLOTS`, all three
ledger operations are total and harmless: check reports unavailable with
remaining 0, book returns false, and neither check nor book changes any
slot's booked count or occupancy; release is literally a no-op. -/
theorem C10_invalid_slot (av : Avail) (date time_slot rid : String)
    (hwf : WFKeys av) (hts : time_slot ∉ TIME_SLOTS) :
    (get_slot_availability av date time_slot).2 =
      { available := false, remaining := 0, reason := some "Invalid time slot" } ∧
    (∀ d2 t2, bookedAt (get_slot_availability av date time_slot).1 d2 t2 = bookedAt av d2 t2 ∧
       idsAt (get_slot_availability av date time_slot).1 d2 t2 = idsAt av d2 t2) ∧
    (book_slot av date time_slot rid).2 = false ∧
    (∀ d2 t2, bookedAt (book_slot av date time_slot rid).1 d2 t2 = bookedAt av d2 t2 ∧
       idsAt (book_slot av date time_slot rid).1 d2 t2 = idsAt av d2 t2) ∧
    release_slot av date time_slot rid = av := by
  have hnone := recAt_ensure_not_slot hwf date hts
  have hbook : book_slot av date time_slot rid = (ensureDate av date, false) := by
    simp only [book_slot_spec, hnone]
  refine ⟨?_, ?_, ?_, ?_, ?_⟩
  · show slotStatus (ensureDate av date) date time_slot = _
    unfold slotStatus
    rw [hnone]
  · intro d2 t2
    exact ⟨bookedAt_ensureDate av date d2 t2, idsAt_ensureDate av date d2 t2⟩
  · rw [hbook]
  · intro d2 t2
    rw [hbook]
    exact ⟨bookedAt_ensureDate av date d2 t2, idsAt_ensureDate av date d2 t2⟩
  · unfold release_slot
    rw [recAt_not_slot hwf date hts]

theorem C10_invalid_slot_witness :
    ((get_slot_availability [] "2025-03-01" "12:00").2 =
      { available := false, remaining := 0, reason := some "Invalid time slot" } ∧
    (∀ d2 t2, bookedAt (get_slot_availability [] "2025-03-01" "12:00").1 d2 t2 = bookedAt [] d2 t2 ∧
       idsAt (get_slot_availability [] "2025-03-01" "12:00").1 d2 t2 = idsAt [] d2 t2) ∧
    (book_slot [] "2025-03-01" "12:00" "999999").2 = false ∧
    (∀ d2 t2, bookedAt (book_slot [] "2025-03-01" "12:00" "999999").1 d2 t2 = bookedAt [] d2 t2 ∧
       idsAt (book_slot [] "2025-03-01" "12:00" "999999").1 d2 t2 = idsAt [] d2 t2) ∧
    release_slot [] "2025-03-01" "12:00" "999999" = []) :=
  C10_invalid_slot [] "2025-03-01" "12:00" "999999"
    (fun p hp => absurd hp (List.not_mem_nil p)) (by decide)

/-- A ledger state holding the same reservation id twice in one slot,
produced by the system's own `book_slot` called twice with one id (nothing
in `book_slot` rejects a duplicate id). -/
def avDup : Avail :=
  (book_slot (book_slot [] "2025-03-01" "19:00" "777777").1
    "2025-03-01" "19:00" "777777").1

/-- C8 counterexample: `release_slot` is not idempotent as claimed.  On a
state whose occupancy list holds the same id twice, a repeat call with the
same arguments removes the second occurrence and decrements the booked
count again. -/
theorem C8_release_counterexample :
    bookedAt avDup "2025-03-01" "19:00" = 2 ∧
    bookedAt (release_slot avDup "2025-03-01" "19:00" "777777")
      "2025-03-01" "19:00" = 1 ∧
    bookedAt (release_slot (release_slot avDup "2025-03-01" "19:00" "777777")
      "2025-03-01" "19:00" "777777") "2025-03-01" "19:00" = 0 ∧
    release_slot (release_slot avDup "2025-03-01" "19:00" "777777")
        "2025-03-01" "19:00" "777777" ≠
      release_slot avDup "2025-03-01" "19:00" "777777" := by
  refine ⟨rfl, rfl, rfl, ?_⟩
  decide

/-- C8 (amended): `release` removes the first occurrence of the id and
decrements the booked count only when the id is present; a call with an id
not occupying the slot — an id never booked, a date or slot never seen, or
a repeat of a completed release — is a no-op and raises no error.  The
repeat call is guaranteed to change no state when the id occupies the slot
at most once, which is why a double cancel of one reservation never
decrements a slot's booked count twice. -/
theorem C8_release_idempotent (av : Avail) (d t rid : String) :
    (rid ∉ idsAt av d t → release_slot av d t rid = av) ∧
    (rid ∈ idsAt av d t →
      idsAt (release_slot av d t rid) d t = (idsAt av d t).erase rid ∧
      bookedAt (release_slot av d t rid) d t = max 0 (bookedAt av d t - 1)) ∧
    ((idsAt av d t).count rid ≤ 1 →
      release_slot (release_slot av d t rid) d t rid =
        release_slot av d t rid) := by
  refine ⟨release_slot_not_mem, ?_, ?_⟩
  · intro hmem
    cases hr : recAt av d t with
    | none =>
      unfold idsAt at hmem
      rw [hr] at hmem
      simp at hmem
    | some rec =>
      rw [idsAt_of_recAt hr] at hmem
      have h2 := recAt_release_self hr hmem
      constructor
      · rw [idsAt_of_recAt h2, idsAt_of_recAt hr]
        rfl
      · rw [bookedAt_of_recAt h2, bookedAt_of_recAt hr]
        rfl
  · intro hcount
    by_cases hmem : rid ∈ idsAt av d t
    · cases hr : recAt av d t with
      | none =>
        unfold idsAt at hmem
        rw [hr] at hmem
        simp at hmem
      | some rec =>
        rw [idsAt_of_recAt hr] at hmem
        have h2 := recAt_release_self hr hmem
        have hcnt : ((idsAt (release_slot av d t rid) d t).count rid) = 0 := by
          rw [idsAt_of_recAt h2]
          show ((rec.reservation_ids.erase rid).count rid) = 0
          rw [List.count_erase_self]
          rw [idsAt_of_recAt hr] at hcount
          have hpos : 0 < rec.reservation_ids.count rid :=
            List.count_pos_iff.mpr hmem
          omega
        have hnot : rid ∉ idsAt (release_slot av d t rid) d t := by
          intro hin
          have := List.count_pos_iff.mpr hin
          omega
        exact release_slot_not_mem hnot
    · rw [release_slot_not_mem hmem, release_slot_not_mem hmem]

/-- A ledger state holding id "111111" exactly once in the 19:00 slot. -/
def avOne : Avail := (book_slot [] "2025-03-01" "19:00" "111111").1

theorem C8_release_idempotent_witness :
    (release_slot avOne "2025-03-01" "19:00" "222222" = avOne) ∧
    (idsAt (release_slot avOne "2025-03-01" "19:00" "111111") "2025-03-01" "19:00" =
      (idsAt avOne "2025-03-01" "19:00").erase "111111" ∧
     bookedAt (release_slot avOne "2025-03-01" "19:00" "111111") "2025-03-01" "19:00" =
      max 0 (bookedAt avOne "2025-03-01" "19:00" - 1)) ∧
    (release_slot (release_slot avOne "2025-03-01" "19:00" "111111")
        "2025-03-01" "19:00" "111111" =
      release_slot avOne "2025-03-01" "19:00" "111111") :=
  ⟨(C8_release_idempotent avOne "2025-03-01" "19:00" "222222").1 (by decide),
   (C8_release_idempotent avOne "2025-03-01" "19:00" "111111").2.1 (by decide),
   (C8_release_idempotent avOne "2025-03-01" "19:00" "111111").2.2 (by decide)⟩

/-- The draft Alice uses throughout the concrete scenarios. -/
def pendAlice : Pending :=
  { name := some "Alice", party_size := some 2, date := some "2025-03-01",
    time := some "19:00", phone := some "15551234567", special_requests := some "" }

/-- State after confirming Alice's reservation (id "123456") and then
cancelling it: the record stays in the store with status "cancelled". -/
def stCancelled : SysState :=
  (cancel_existing_reservation
    (confirm_reservation initState pendAlice "123456").1 (some "123456")).1

/-- Alice's record as it sits in the store after cancellation. -/
def resAliceCancelled : Reservation :=
  { id := "123456", name := "Alice", party_size := 2, date := "2025-03-01",
    time := "19:00", phone := "15551234567", special_requests := "",
    status := "cancelled" }

/-- C7 counterexample: a cancelled reservation remains in `RESERVATIONS`,
so an id referring to an already-cancelled reservation is NOT rejected
with a not-found outcome — both cancel and modify proceed on it. -/
theorem C7_cancelled_id_counterexample :
    (dget stCancelled.reservations "123456").map Reservation.status =
      some "cancelled" ∧
    (cancel_existing_reservation stCancelled (some "123456")).2 ≠
      ManageOutcome.notFound ∧
    (modify_reservation stCancelled (some "123456") none none none none).2 ≠
      ManageOutcome.notFound := by
  refine ⟨rfl, ?_, ?_⟩ <;> decide

/-- C7 (amended): modify and cancel fail with the not-found outcome and
leave the whole state unchanged exactly when the identifier is missing,
empty, or absent from the store.  An id of an already-cancelled
reservation is instead processed again; for cancel the repeat is
harmless: once the id no longer occupies its slot, re-cancelling returns
the same record and changes neither the store nor the ledger, so a double
cancel never double-releases. -/
theorem C7_not_found (st : SysState) (res_id : Option String)
    (args_date args_time : Option String) (ps : Option Int) (sr : Option String) :
    ((res_id = none ∨ ∃ rid, res_id = some rid ∧
        (rid = "" ∨ dget st.reservations rid = none)) →
      modify_reservation st res_id args_date args_time ps sr =
        (st, ManageOutcome.notFound) ∧
      cancel_existing_reservation st res_id = (st, ManageOutcome.notFound)) ∧
    (∀ rid res, res_id = some rid → rid ≠ "" →
      dget st.reservations rid = some res → res.status = "cancelled" →
      rid ∉ idsAt st.availability res.date res.time →
      cancel_existing_reservation st res_id = (st, ManageOutcome.ok res)) := by
  constructor
  · intro h
    rcases h with h | ⟨rid, hrid, h⟩
    · subst h
      exact ⟨rfl, rfl⟩
    · subst hrid
      rcases h with h | h
      · subst h
        constructor <;> simp [modify_reservation, cancel_existing_reservation]
      · constructor <;> simp [modify_reservation, cancel_existing_reservation, h]
  · intro rid res hrid hne hget hstatus hnot
    subst hrid
    have hres : { res with status := "cancelled" } = res := by
      cases res
      simp_all
    unfold cancel_existing_reservation
    simp only [hne, if_neg, hget, hres]
    rw [dset_eq_of_dget hget, release_slot_not_mem hnot]
    simp

theorem C7_not_found_witness :
    (modify_reservation initState (some "999999") none none none none =
        (initState, ManageOutcome.notFound) ∧
     cancel_existing_reservation initState (some "999999") =
        (initState, ManageOutcome.notFound)) ∧
    cancel_existing_reservation stCancelled (some "123456") =
      (stCancelled, ManageOutcome.ok resAliceCancelled) :=
  ⟨(C7_not_found initState (some "999999") none none none none).1
      (Or.inr ⟨"999999", rfl, Or.inr rfl⟩),
   (C7_not_found stCancelled (some "123456") none none none none).2
      "123456" resAliceCancelled rfl (by decide) rfl rfl (by decide)⟩

/-- The scan loop collects exactly the records passing `lookupMatch`,
in insertion order. -/
theorem lookupScan_eq_filter (phone name : String) (rs : List (String × Reservation)) :
    lookupScan phone name rs = (rs.map Prod.snd).filter (lookupMatch phone name) := by
  induction rs with
  | nil => rfl
  | cons p rest ih =>
    obtain ⟨k, res⟩ := p
    rw [List.map_cons]
    show (if res.status ≠ "confirmed" then lookupScan phone name rest
      else if phone ≠ "" ∧ isSubstr phone res.phone then
        res :: lookupScan phone name rest
      else if name ≠ "" ∧ isSubstr name.toLower res.name.toLower then
        res :: lookupScan phone name rest
      else lookupScan phone name rest) = _
    split_ifs with h1 h2 h3
    · have hm : lookupMatch phone name res = false := by
        unfold lookupMatch
        rw [if_pos h1]
      rw [ih]
      simp [List.filter_cons, hm]
    · have hm : lookupMatch phone name res = true := by
        unfold lookupMatch
        rw [if_neg h1, if_pos h2]
      rw [ih]
      simp [List.filter_cons, hm]
    · have hm : lookupMatch phone name res = true := by
        unfold lookupMatch
        rw [if_neg h1, if_neg h2, if_pos h3]
      rw [ih]
      simp [List.filter_cons, hm]
    · have hm : lookupMatch phone name res = false := by
        unfold lookupMatch
        rw [if_neg h1, if_neg h2, if_neg h3]
      rw [ih]
      simp [List.filter_cons, hm]

/-- The loop's `if`/`elif` acceptance condition, as one predicate. -/
theorem lookupMatch_iff (phone name : String) (r : Reservation) :
    lookupMatch phone name r = true ↔
      (r.status = "confirmed" ∧
        ((phone ≠ "" ∧ isSubstr phone r.phone = true) ∨
         (name ≠ "" ∧ isSubstr name.toLower r.name.toLower = true))) := by
  unfold lookupMatch
  split_ifs with h1 h2 h3 <;> simp_all

/-- C9: lookup with neither a phone nor a name returns the prompt asking
which to provide, never a list; otherwise the returned list holds exactly
the stored reservations that are confirmed and match the supplied phone
by substring containment or the supplied name by case-insensitive
substring containment (inclusive-or when both are supplied). -/
theorem C9_lookup (rs : SDict Reservation) (phone name : String) :
    lookup_reservation rs "" "" = LookupOutcome.prompt ∧
    (∀ l, lookup_reservation rs phone name = LookupOutcome.results l →
      ∀ r, r ∈ l ↔ (r ∈ rs.map Prod.snd ∧ r.status = "confirmed" ∧
        ((phone ≠ "" ∧ isSubstr phone r.phone = true) ∨
         (name ≠ "" ∧ isSubstr name.toLower r.name.toLower = true)))) := by
  constructor
  · unfold lookup_reservation
    rw [if_pos ⟨rfl, rfl⟩]
  · intro l hl r
    unfold lookup_reservation at hl
    by_cases hargs : phone = "" ∧ name = ""
    · rw [if_pos hargs] at hl
      exact absurd hl (by simp)
    · rw [if_neg hargs] at hl
      have hres : lookupScan phone name rs = l := by injection hl
      subst hres
      rw [lookupScan_eq_filter, List.mem_filter, lookupMatch_iff]

/-- A confirmed record for the lookup witness. -/
def resAliceConfirmed : Reservation :=
  { id := "123456", name := "Alice", party_size := 2, date := "2025-03-01",
    time := "19:00", phone := "15551234567", special_requests := "",
    status := "confirmed" }

/-- A cancelled record for the lookup witness. -/
def resBobCancelled : Reservation :=
  { id := "654321", name := "Bob", party_size := 3, date := "2025-03-02",
    time := "18:00", phone := "15559876543", special_requests := "",
    status := "cancelled" }

/-- The store of the lookup witness: confirmed Alice, cancelled Bob. -/
def rsLookup : SDict Reservation :=
  [("123456", resAliceConfirmed), ("654321", resBobCancelled)]

theorem C9_lookup_witness :
    lookup_reservation rsLookup "" "" = LookupOutcome.prompt ∧
    (lookupScan "5551234" "alice" rsLookup ∈
        [lookupScan "5551234" "alice" rsLookup] →
      ∀ r, r ∈ lookupScan "5551234" "alice" rsLookup ↔
        (r ∈ rsLookup.map Prod.snd ∧ r.status = "confirmed" ∧
          (("5551234" ≠ "" ∧ isSubstr "5551234" r.phone = true) ∨
           ("alice" ≠ "" ∧ isSubstr "alice".toLower r.name.toLower = true)))) :=
  ⟨(C9_lookup rsLookup "5551234" "alice").1,
   fun _ => (C9_lookup rsLookup "5551234" "alice").2
     (lookupScan "5551234" "alice" rsLookup) rfl⟩

/-- A draft whose party size exceeds `MAX_PARTY_SIZE`, all other fields
present. -/
def pendOversize : Pending :=
  { name := some "Bob", party_size := some 21, date := some "2025-03-01",
    time := some "19:00", phone := some "15550000000",
    special_requests := some "" }

/-- The reservation `confirm` creates from `pendOversize`. -/
def resOversize : Reservation :=
  { id := "222222", name := "Bob", party_size := 21, date := "2025-03-01",
    time := "19:00", phone := "15550000000", special_requests := "",
    status := "confirmed" }

/-- C5 counterexample: `confirm` does not validate the party-size range.
A draft with party size 21 (above `MAX_PARTY_SIZE = 20`) sails through
`confirm` and a reservation is created, contradicting the claim that
confirm validates `party_size ∈ 1..max`.  (The range is only checked
upstream in `set_party_size`; confirm tests mere truthiness.) -/
theorem C5_party_size_counterexample :
    resOversize.party_size > MAX_PARTY_SIZE ∧
    (confirm_reservation initState pendOversize "222222").2 =
      ConfirmOutcome.confirmed resOversize ∧
    dget (confirm_reservation initState pendOversize "222222").1.reservations
      "222222" = some resOversize := by
  refine ⟨by decide, rfl, rfl⟩

/-- C5 (amended): `confirm` validates only presence (Python truthiness) of
name, party_size, date, time and phone.  When a required field is falsy it
fails with a validation error naming exactly the falsy fields and the state
is untouched; when all are present but the slot reports unavailable it
fails with the slot-unavailable outcome, creates no reservation, and
changes no slot's booked count or occupancy.  The party-size range and
slot-set membership are not re-checked at confirm. -/
theorem C5_confirm_validation (st : SysState) (pending : Pending) (cn : String) :
    (missingFields pending = [] ↔
      truthyS pending.name = true ∧ truthyI pending.party_size = true ∧
      truthyS pending.date = true ∧ truthyS pending.time = true ∧
      truthyS pending.phone = true) ∧
    (missingFields pending ≠ [] →
      confirm_reservation st pending cn =
        (st, ConfirmOutcome.validationError (missingFields pending))) ∧
    (missingFields pending = [] →
      (get_slot_availability st.availability (pending.date.getD "")
          (pending.time.getD "")).2.available = false →
      (confirm_reservation st pending cn).2 = ConfirmOutcome.slotUnavailable ∧
      (confirm_reservation st pending cn).1.reservations = st.reservations ∧
      ∀ d2 t2,
        bookedAt (confirm_reservation st pending cn).1.availability d2 t2 =
          bookedAt st.availability d2 t2 ∧
        idsAt (confirm_reservation st pending cn).1.availability d2 t2 =
          idsAt st.availability d2 t2) := by
  refine ⟨?_, ?_, ?_⟩
  · unfold missingFields
    split_ifs <;> simp_all
  · intro h
    unfold confirm_reservation
    simp only [h]
    rw [if_pos h]
  · intro h hun
    unfold confirm_reservation
    rw [if_neg (by simp [h]), if_pos hun]
    refine ⟨rfl, rfl, ?_⟩
    intro d2 t2
    exact ⟨bookedAt_ensureDate st.availability (pending.date.getD "") d2 t2,
      idsAt_ensureDate st.availability (pending.date.getD "") d2 t2⟩

/-- A draft with no fields set at all. -/
def pendEmpty : Pending :=
  { name := none, party_size := none, date := none, time := none,
    phone := none, special_requests := none }

/-- The 19:00 slot of 2025-03-01 booked to capacity. -/
def avFull : Avail :=
  (book_slot (book_slot (book_slot (book_slot (book_slot []
    "2025-03-01" "19:00" "100001").1
    "2025-03-01" "19:00" "100002").1
    "2025-03-01" "19:00" "100003").1
    "2025-03-01" "19:00" "100004").1
    "2025-03-01" "19:00" "100005").1

/-- A state whose 19:00 slot on 2025-03-01 is full. -/
def stFull : SysState := { reservations := [], availability := avFull }

theorem C5_confirm_validation_witness :
    (confirm_reservation initState pendEmpty "222222" =
      (initState, ConfirmOutcome.validationError
        ["name", "party_size", "date", "time", "phone"])) ∧
    ((confirm_reservation stFull pendAlice "222222").2 =
        ConfirmOutcome.slotUnavailable ∧
      (confirm_reservation stFull pendAlice "222222").1.reservations =
        stFull.reservations ∧
      ∀ d2 t2,
        bookedAt (confirm_reservation stFull pendAlice "222222").1.availability d2 t2 =
          bookedAt stFull.availability d2 t2 ∧
        idsAt (confirm_reservation stFull pendAlice "222222").1.availability d2 t2 =
          idsAt stFull.availability d2 t2) :=
  ⟨(C5_confirm_validation initState pendEmpty "222222").2.1 (by decide),
   (C5_confirm_validation stFull pendAlice "222222").2.2 (by decide) (by decide)⟩

/-- The store after Alice's confirm drew confirmation number "123456". -/
def stAlice : SysState := (confirm_reservation initState pendAlice "123456").1

/-- A second caller's complete draft. -/
def pendCarol : Pending :=
  { name := some "Carol", party_size := some 4, date := some "2025-03-02",
    time := some "18:00", phone := some "15551112222",
    special_requests := some "" }

/-- The reservation the second confirm writes over Alice's. -/
def resCarol : Reservation :=
  { id := "123456", name := "Carol", party_size := 4, date := "2025-03-02",
    time := "18:00", phone := "15551112222", special_requests := "",
    status := "confirmed" }

/-- C4 (code-bug evidence): `generate_confirmation_number` draws a random
6-digit number with no uniqueness check against `RESERVATIONS`, no retry
and no error path, even though its docstring promises a unique number.
When the environment's random draw collides with an existing id, the
second confirm succeeds and `RESERVATIONS[confirmation_number] = ...`
silently overwrites the earlier reservation. -/
theorem C4_confirmation_collision_overwrites :
    dget stAlice.reservations "123456" = some resAliceConfirmed ∧
    (confirm_reservation stAlice pendCarol "123456").2 =
      ConfirmOutcome.confirmed resCarol ∧
    dget (confirm_reservation stAlice pendCarol "123456").1.reservations
      "123456" = some resCarol ∧
    resCarol ≠ resAliceConfirmed := by
  refine ⟨rfl, rfl, rfl, by decide⟩

theorem slotStatus_available_iff {av : Avail} {d t : String}
    (h : (slotStatus av d t).available = true) :
    ∃ rec, recAt av d t = some rec ∧ (rec.max : Int) - (rec.booked : Int) > 0 := by
  unfold slotStatus at h
  cases hr : recAt av d t with
  | none => rw [hr] at h; simp at h
  | some rec =>
    rw [hr] at h
    refine ⟨rec, rfl, ?_⟩
    simpa using h

theorem recAt_isSome_outer {av : Avail} {d t : String} {rec : SlotRec}
    (h : recAt av d t = some rec) : (dget av d).isSome = true := by
  unfold recAt at h
  cases hg : dget av d with
  | none => rw [hg] at h; simp at h
  | some slots => simp

theorem applyChanges_date (ps : Option Int) (sr : Option String) (r : Reservation) :
    (applySpecialRequests sr (applyPartySize ps r)).date = r.date := by
  cases ps <;> cases sr <;> rfl

theorem applyChanges_time (ps : Option Int) (sr : Option String) (r : Reservation) :
    (applySpecialRequests sr (applyPartySize ps r)).time = r.time := by
  cases ps <;> cases sr <;> rfl

/-- C6: a modify whose changes include a new date or time either fully
fails — when the destination slot reports unavailable the outcome is
slot-unavailable, the stored record is untouched and no slot's booked
count or occupancy changes (the origin stays booked) — or fully succeeds:
the stored record moves to the destination, the destination slot gains
the id and one booked count, the origin slot loses the id and one booked
count, and every other slot is untouched.  The reservation is never left
released but not rebooked. -/
theorem C6_modify_swap (st : SysState) (rid : String) (res : Reservation)
    (nd nt : Option String) (ps : Option Int) (sr : Option String)
    (hrid : rid ≠ "") (hres : dget st.reservations rid = some res)
    (hmove : nd.getD res.date ≠ res.date ∨ nt.getD res.time ≠ res.time) :
    ((get_slot_availability st.availability (nd.getD res.date)
        (nt.getD res.time)).2.available = false →
      (modify_reservation st (some rid) nd nt ps sr).2 =
        ManageOutcome.slotUnavailable (nd.getD res.date) (nt.getD res.time) ∧
      (modify_reservation st (some rid) nd nt ps sr).1.reservations =
        st.reservations ∧
      ∀ d2 t2,
        bookedAt (modify_reservation st (some rid) nd nt ps sr).1.availability
            d2 t2 = bookedAt st.availability d2 t2 ∧
        idsAt (modify_reservation st (some rid) nd nt ps sr).1.availability
            d2 t2 = idsAt st.availability d2 t2) ∧
    ((get_slot_availability st.availability (nd.getD res.date)
        (nt.getD res.time)).2.available = true →
      rid ∈ idsAt st.availability res.date res.time →
      (modify_reservation st (some rid) nd nt ps sr).2 =
        ManageOutcome.ok (applySpecialRequests sr (applyPartySize ps
          { res with date := nd.getD res.date, time := nt.getD res.time })) ∧
      dget (modify_reservation st (some rid) nd nt ps sr).1.reservations rid =
        some (applySpecialRequests sr (applyPartySize ps
          { res with date := nd.getD res.date, time := nt.getD res.time })) ∧
      (applySpecialRequests sr (applyPartySize ps
        { res with date := nd.getD res.date,
                   time := nt.getD res.time })).date = nd.getD res.date ∧
      (applySpecialRequests sr (applyPartySize ps
        { res with date := nd.getD res.date,
                   time := nt.getD res.time })).time = nt.getD res.time ∧
      idsAt (modify_reservation st (some rid) nd nt ps sr).1.availability
          (nd.getD res.date) (nt.getD res.time) =
        idsAt st.availability (nd.getD res.date) (nt.getD res.time) ++ [rid] ∧
      bookedAt (modify_reservation st (some rid) nd nt ps sr).1.availability
          (nd.getD res.date) (nt.getD res.time) =
        bookedAt st.availability (nd.getD res.date) (nt.getD res.time) + 1 ∧
      idsAt (modify_reservation st (some rid) nd nt ps sr).1.availability
          res.date res.time =
        (idsAt st.availability res.date res.time).erase rid ∧
      bookedAt (modify_reservation st (some rid) nd nt ps sr).1.availability
          res.date res.time =
        max 0 (bookedAt st.availability res.date res.time - 1) ∧
      ∀ d2 t2, ¬(d2 = nd.getD res.date ∧ t2 = nt.getD res.time) →
        ¬(d2 = res.date ∧ t2 = res.time) →
        bookedAt (modify_reservation st (some rid) nd nt ps sr).1.availability
            d2 t2 = bookedAt st.availability d2 t2 ∧
        idsAt (modify_reservation st (some rid) nd nt ps sr).1.availability
            d2 t2 = idsAt st.availability d2 t2) := by
  have hnefrom : ¬(nd.getD res.date = res.date ∧ nt.getD res.time = res.time) := by
    rcases hmove with h | h
    · exact fun hc => h hc.1
    · exact fun hc => h hc.2
  have hneto : ¬(res.date = nd.getD res.date ∧ res.time = nt.getD res.time) := by
    rcases hmove with h | h
    · exact fun hc => h hc.1.symm
    · exact fun hc => h hc.2.symm
  constructor
  · intro hun
    have hA : modify_reservation st (some rid) nd nt ps sr =
        ({ st with availability := ensureDate st.availability (nd.getD res.date) },
         ManageOutcome.slotUnavailable (nd.getD res.date) (nt.getD res.time)) := by
      unfold modify_reservation
      simp only [hres, hrid]
      rw [if_neg (by simp [hrid]), if_pos hmove, if_pos hun]
      rfl
    rw [hA]
    refine ⟨rfl, rfl, ?_⟩
    intro d2 t2
    exact ⟨bookedAt_ensureDate _ _ d2 t2, idsAt_ensureDate _ _ d2 t2⟩
  · intro hav hold
    have havail : (slotStatus (ensureDate st.availability (nd.getD res.date))
        (nd.getD res.date) (nt.getD res.time)).available = true := hav
    obtain ⟨rec, hrec, hpos⟩ := slotStatus_available_iff havail
    have hold1 : rid ∈ idsAt (ensureDate st.availability (nd.getD res.date))
        res.date res.time := by
      rw [idsAt_ensureDate]
      exact hold
    obtain ⟨orec, horec, hin⟩ : ∃ orec,
        recAt (ensureDate st.availability (nd.getD res.date)) res.date res.time =
          some orec ∧ rid ∈ orec.reservation_ids := by
      cases ho : recAt (ensureDate st.availability (nd.getD res.date))
          res.date res.time with
      | none =>
        unfold idsAt at hold1
        rw [ho] at hold1
        simp at hold1
      | some o =>
        exact ⟨o, rfl, by rwa [idsAt_of_recAt ho] at hold1⟩
    have hrecdest2 : recAt (release_slot (ensureDate st.availability (nd.getD res.date))
        res.date res.time rid) (nd.getD res.date) (nt.getD res.time) = some rec := by
      rw [recAt_release_ne _ _ _ _ hnefrom]
      exact hrec
    have hrel_origin : recAt (release_slot (ensureDate st.availability (nd.getD res.date))
        res.date res.time rid) res.date res.time = some (relUpd rid orec) :=
      recAt_release_self horec hin
    have hens2 : ensureDate (release_slot (ensureDate st.availability (nd.getD res.date))
        res.date res.time rid) (nd.getD res.date) =
        release_slot (ensureDate st.availability (nd.getD res.date))
          res.date res.time rid :=
      ensureDate_of_isSome _ _ (recAt_isSome_outer hrecdest2)
    have hbook : book_slot (release_slot (ensureDate st.availability (nd.getD res.date))
        res.date res.time rid) (nd.getD res.date) (nt.getD res.time) rid =
        (modifySlot (release_slot (ensureDate st.availability (nd.getD res.date))
          res.date res.time rid) (nd.getD res.date) (nt.getD res.time)
          (bookUpd rid), true) := by
      simp only [book_slot_spec, hens2, hrecdest2]
      rw [if_pos hpos]
    have hB : modify_reservation st (some rid) nd nt ps sr =
        ({ reservations := dset st.reservations rid
            (applySpecialRequests sr (applyPartySize ps
              { res with date := nd.getD res.date, time := nt.getD res.time })),
           availability := (book_slot (release_slot
             (ensureDate st.availability (nd.getD res.date)) res.date res.time rid)
             (nd.getD res.date) (nt.getD res.time) rid).1 },
         ManageOutcome.ok (applySpecialRequests sr (applyPartySize ps
          { res with date := nd.getD res.date, time := nt.getD res.time }))) := by
      unfold modify_reservation
      simp only [hres, hrid]
      rw [if_neg (by simp [hrid]), if_pos hmove, if_neg (by simp [hav])]
      rfl
    rw [hB]
    simp only [hbook]
    have hmoddest : recAt (modifySlot (release_slot
        (ensureDate st.availability (nd.getD res.date)) res.date res.time rid)
        (nd.getD res.date) (nt.getD res.time) (bookUpd rid))
        (nd.getD res.date) (nt.getD res.time) = some (bookUpd rid rec) :=
      recAt_modifySlot_self hrecdest2 (bookUpd rid)
    have hmodorig : recAt (modifySlot (release_slot
        (ensureDate st.availability (nd.getD res.date)) res.date res.time rid)
        (nd.getD res.date) (nt.getD res.time) (bookUpd rid))
        res.date res.time = some (relUpd rid orec) := by
      rw [recAt_modifySlot_ne _ _ _ _ hneto]
      exact hrel_origin
    have hido : idsAt st.availability res.date res.time = orec.reservation_ids := by
      rw [← idsAt_ensureDate st.availability (nd.getD res.date) res.date res.time]
      exact idsAt_of_recAt horec
    have hbko : bookedAt st.availability res.date res.time = orec.booked := by
      rw [← bookedAt_ensureDate st.availability (nd.getD res.date) res.date res.time]
      exact bookedAt_of_recAt horec
    have hidd : idsAt st.availability (nd.getD res.date) (nt.getD res.time) =
        rec.reservation_ids := by
      rw [← idsAt_ensureDate st.availability (nd.getD res.date)]
      exact idsAt_of_recAt hrec
    have hbkd : bookedAt st.availability (nd.getD res.date) (nt.getD res.time) =
        rec.booked := by
      rw [← bookedAt_ensureDate st.availability (nd.getD res.date)]
      exact bookedAt_of_recAt hrec
    refine ⟨trivial, dget_dset_self _ _ _, applyChanges_date ps sr _,
      applyChanges_time ps sr _, ?_, ?_, ?_, ?_, ?_⟩
    · rw [idsAt_of_recAt hmoddest, hidd]
      rfl
    · rw [bookedAt_of_recAt hmoddest, hbkd]
      rfl
    · rw [idsAt_of_recAt hmodorig, hido]
      rfl
    · rw [bookedAt_of_recAt hmodorig, hbko]
      rfl
    · intro d2 t2 hne1 hne2
      have h1 : recAt (modifySlot (release_slot
          (ensureDate st.availability (nd.getD res.date)) res.date res.time rid)
          (nd.getD res.date) (nt.getD res.time) (bookUpd rid)) d2 t2 =
          recAt (ensureDate st.availability (nd.getD res.date)) d2 t2 := by
        rw [recAt_modifySlot_ne _ _ _ _ hne1, recAt_release_ne _ _ _ _ hne2]
      constructor
      · rw [bookedAt_congr h1]
        exact bookedAt_ensureDate _ _ d2 t2
      · rw [idsAt_congr h1]
        exact idsAt_ensureDate _ _ d2 t2

/-- Alice's state with the 20:00 slot of 2025-03-01 additionally full. -/
def stBusy : SysState :=
  { reservations := stAlice.reservations,
    availability :=
      (book_slot (book_slot (book_slot (book_slot (book_slot stAlice.availability
        "2025-03-01" "20:00" "200001").1
        "2025-03-01" "20:00" "200002").1
        "2025-03-01" "20:00" "200003").1
        "2025-03-01" "20:00" "200004").1
        "2025-03-01" "20:00" "200005").1 }

/-- Alice's record after moving to 20:00. -/
def resAliceMoved : Reservation :=
  { id := "123456", name := "Alice", party_size := 2, date := "2025-03-01",
    time := "20:00", phone := "15551234567", special_requests := "",
    status := "confirmed" }

theorem C6_modify_swap_witness :
    ((modify_reservation stBusy (some "123456") none (some "20:00") none none).2 =
        ManageOutcome.slotUnavailable "2025-03-01" "20:00" ∧
      (modify_reservation stBusy (some "123456") none (some "20:00") none none).1.reservations =
        stBusy.reservations ∧
      ∀ d2 t2,
        bookedAt (modify_reservation stBusy (some "123456") none (some "20:00")
            none none).1.availability d2 t2 = bookedAt stBusy.availability d2 t2 ∧
        idsAt (modify_reservation stBusy (some "123456") none (some "20:00")
            none none).1.availability d2 t2 = idsAt stBusy.availability d2 t2) ∧
    ((modify_reservation stAlice (some "123456") none (some "20:00") none none).2 =
        ManageOutcome.ok resAliceMoved ∧
      dget (modify_reservation stAlice (some "123456") none (some "20:00")
        none none).1.reservations "123456" = some resAliceMoved ∧
      resAliceMoved.date = "2025-03-01" ∧
      resAliceMoved.time = "20:00" ∧
      idsAt (modify_reservation stAlice (some "123456") none (some "20:00")
          none none).1.availability "2025-03-01" "20:00" =
        idsAt stAlice.availability "2025-03-01" "20:00" ++ ["123456"] ∧
      bookedAt (modify_reservation stAlice (some "123456") none (some "20:00")
          none none).1.availability "2025-03-01" "20:00" =
        bookedAt stAlice.availability "2025-03-01" "20:00" + 1 ∧
      idsAt (modify_reservation stAlice (some "123456") none (some "20:00")
          none none).1.availability "2025-03-01" "19:00" =
        (idsAt stAlice.availability "2025-03-01" "19:00").erase "123456" ∧
      bookedAt (modify_reservation stAlice (some "123456") none (some "20:00")
          none none).1.availability "2025-03-01" "19:00" =
        max 0 (bookedAt stAlice.availability "2025-03-01" "19:00" - 1) ∧
      ∀ d2 t2, ¬(d2 = "2025-03-01" ∧ t2 = "20:00") →
        ¬(d2 = "2025-03-01" ∧ t2 = "19:00") →
        bookedAt (modify_reservation stAlice (some "123456") none (some "20:00")
            none none).1.availability d2 t2 = bookedAt stAlice.availability d2 t2 ∧
        idsAt (modify_reservation stAlice (some "123456") none (some "20:00")
            none none).1.availability d2 t2 = idsAt stAlice.availability d2 t2) :=
  ⟨(C6_modify_swap stBusy "123456" resAliceConfirmed none (some "20:00") none none
      (by decide) rfl (by decide)).1 (by decide),
   (C6_modify_swap stAlice "123456" resAliceConfirmed none (some "20:00") none none
      (by decide) rfl (by decide)).2 (by decide) (by decide)⟩

end BobbysTable
